import Mathlib

/-!
# rutil: dump file codec, key selector and restore policy

A shallow embedding of `rutil.go`.  The Go functions are translated one by one
and keep their names.  What the program reaches through interfaces or
libraries is made explicit:

* `io.Writer` is a byte buffer together with the number of bytes it still
  accepts before a write reports an error; `io.Reader` is the list of bytes
  not yet consumed;
* `encoding/binary` is modelled for the four kinds of value the program
  passes to it (`int64`, `uint64`, `[]byte`, `FileHeader`), big-endian;
* the redis client is a log of the commands sent on the connection, and the
  server is an arbitrary function from that log and a command to a reply;
* `regexp` is an arbitrary compiler from patterns to matchers;
* `checkErr` ends the process, which is the result `Fault.exit`.

Machine integers are `Nat` and `Int`, with the conversions written out.
-/

namespace Rutil

/-! ## Values -/

/-- One octet. -/
abbrev Byte := Fin 256

/-- A Go `string` (and a `[]byte`): a sequence of octets. -/
abbrev GoString := List Byte

/-- A Go `error` value; only its presence is ever inspected. -/
abbrev Error := String

/-- How a run ends when it does not return: `os.Exit(1)` from `checkErr`, or a
run-time panic. -/
inductive Fault where
  | exit (code : Nat)
  | panic (msg : String)
  deriving DecidableEq, Repr

/-- Go `byte(x)`: the low eight bits. -/
def toByte (x : Nat) : Byte := ⟨x % 256, Nat.mod_lt x (by decide)⟩

/-- Go `uint64(x)` for a signed integer `x`: reduction modulo `2^64`. -/
def uint64 (x : Int) : Nat := (x % 2 ^ 64).toNat

/-- Go `int64(u)` for an unsigned 64-bit `u`: the two's-complement reading. -/
def int64 (u : Nat) : Int :=
  if u % 2 ^ 64 < 2 ^ 63 then ((u % 2 ^ 64 : Nat) : Int) else ((u % 2 ^ 64 : Nat) : Int) - 2 ^ 64

/-- Go `len`: an `int`. -/
def len {α : Type} (xs : List α) : Int := (xs.length : Int)

/-- The record of one key: `type KeyDump struct`. -/
structure KeyDump where
  Key : List Byte
  KeyL : Nat
  Dump : List Byte
  DumpL : Nat
  Pttl : Int
  deriving DecidableEq, Repr

/-- The file header: `type FileHeader struct`.  `Magic` is a `[4]byte`. -/
structure FileHeader where
  Magic : Byte × Byte × Byte × Byte
  Version : Byte
  Keys : Nat
  deriving DecidableEq, Repr

/-- The zero value of `KeyDump` (`var d KeyDump`). -/
def KeyDump.zero : KeyDump := { Key := [], KeyL := 0, Dump := [], DumpL := 0, Pttl := 0 }

/-- The zero value of `FileHeader` (`var h FileHeader`). -/
def FileHeader.zero : FileHeader := { Magic := (0, 0, 0, 0), Version := 0, Keys := 0 }

/-- The field values a `KeyDump` can hold in Go: `Pttl` an `int64`, `KeyL` and
`DumpL` a `uint64`. -/
def KeyDump.Typed (d : KeyDump) : Prop :=
  -(2 ^ 63 : Int) ≤ d.Pttl ∧ d.Pttl < 2 ^ 63 ∧ d.KeyL < 2 ^ 64 ∧ d.DumpL < 2 ^ 64

instance (d : KeyDump) : Decidable d.Typed := by
  unfold KeyDump.Typed; infer_instance

/-! ## `io.Writer` and `io.Reader` -/

/-- An `io.Writer`: the bytes written so far, and how many more bytes it
accepts before `Write` returns an error. -/
structure Writer where
  buf : List Byte
  room : Nat
  deriving DecidableEq, Repr

/-- The call `w.Write(bs)`: all of `bs` is appended when it fits; otherwise
the part that fits is appended and an error is returned. -/
def Writer.Write (w : Writer) (bs : List Byte) : Option Error × Writer :=
  if bs.length ≤ w.room then
    (none, { buf := w.buf ++ bs, room := w.room - bs.length })
  else
    (some "short write", { buf := w.buf ++ bs.take w.room, room := 0 })

/-- An `io.Reader`: the bytes not yet consumed. -/
abbrev Reader := List Byte

/-- The call `io.ReadFull(r, buf)` with `len(buf) = n`: the next `n` bytes, or
an error after consuming whatever was left. -/
def ReadFull (r : Reader) (n : Nat) : Option (List Byte) × Reader :=
  if n ≤ r.length then (some (r.take n), r.drop n) else (none, [])

/-! ## `encoding/binary`, big-endian -/

namespace binary

/-- The method `BigEndian.PutUint64`: most significant byte first. -/
def PutUint64 (v : Nat) : List Byte :=
  [toByte (v / 2 ^ 56), toByte (v / 2 ^ 48), toByte (v / 2 ^ 40), toByte (v / 2 ^ 32),
   toByte (v / 2 ^ 24), toByte (v / 2 ^ 16), toByte (v / 2 ^ 8), toByte v]

/-- The method `BigEndian.Uint64` on an 8-byte buffer. -/
def Uint64 (b : List Byte) : Nat :=
  match b with
  | [b0, b1, b2, b3, b4, b5, b6, b7] =>
    b7.val + b6.val * 2 ^ 8 + b5.val * 2 ^ 16 + b4.val * 2 ^ 24 + b3.val * 2 ^ 32 +
      b2.val * 2 ^ 40 + b1.val * 2 ^ 48 + b0.val * 2 ^ 56
  | _ => 0

/-- The values the program hands to `binary.Write` and `binary.Size`. -/
inductive Data where
  | int64 (v : Int)
  | uint64 (v : Nat)
  | bytes (b : List Byte)
  | header (h : FileHeader)

/-- The call `binary.Size(v)`: the number of bytes `Write` produces for `v`. -/
def Size : Data → Int
  | .int64 _ => 8
  | .uint64 _ => 8
  | .bytes b => len b
  | .header _ => 4 + 1 + 8

/-- The bytes `binary.Write` produces for a value in big-endian order. -/
def encode : Data → List Byte
  | .int64 v => PutUint64 (Rutil.uint64 v)
  | .uint64 v => PutUint64 v
  | .bytes b => b
  | .header h => [h.Magic.1, h.Magic.2.1, h.Magic.2.2.1, h.Magic.2.2.2] ++ [h.Version] ++ PutUint64 h.Keys

/-- The call `binary.Write(f, binary.BigEndian, data)`: one `Write` of the encoding. -/
def Write (f : Writer) (data : Data) : Option Error × Writer :=
  f.Write (encode data)

/-- The call `binary.Read(f, binary.BigEndian, &x)` for `x` an `int64`: the
new value of `x` (unchanged on a short read), the error, and the reader. -/
def ReadInt64 (f : Reader) (x : Int) : (Int × Option Error) × Reader :=
  match ReadFull f 8 with
  | (some bs, f1) => ((Rutil.int64 (Uint64 bs), none), f1)
  | (none, f1) => ((x, some "unexpected EOF"), f1)

/-- The call `binary.Read(f, binary.BigEndian, &x)` for `x` a `uint64`. -/
def ReadUint64 (f : Reader) (x : Nat) : (Nat × Option Error) × Reader :=
  match ReadFull f 8 with
  | (some bs, f1) => ((Uint64 bs, none), f1)
  | (none, f1) => ((x, some "unexpected EOF"), f1)

/-- The call `binary.Read(f, binary.BigEndian, &x)` for `x` a `[]byte`: it
reads exactly `len(x)` bytes, and leaves `x` as it was on a short read. -/
def ReadBytes (f : Reader) (x : List Byte) : (List Byte × Option Error) × Reader :=
  match ReadFull f x.length with
  | (some bs, f1) => ((bs, none), f1)
  | (none, f1) => ((x, some "unexpected EOF"), f1)

/-- The call `binary.Read(f, binary.BigEndian, &h)` for `h` a `FileHeader`:
13 bytes, field by field. -/
def ReadHeader (f : Reader) (h : FileHeader) : (FileHeader × Option Error) × Reader :=
  match ReadFull f 13 with
  | (some (m0 :: m1 :: m2 :: m3 :: v :: rest), f1) =>
    (({ Magic := (m0, m1, m2, m3), Version := v, Keys := Uint64 rest }, none), f1)
  | (some _, f1) => ((h, some "unexpected EOF"), f1)
  | (none, f1) => ((h, some "unexpected EOF"), f1)

end binary

/-- The built-in `make([]byte, n)`: `n` zero bytes, or a run-time panic when
`n` exceeds the largest allocation `maxAlloc` the platform allows. -/
def make (maxAlloc : Nat) (n : Nat) : Except Fault (List Byte) :=
  if n ≤ maxAlloc then .ok (List.replicate n 0) else .error (.panic "makeslice: len out of range")

/-! ## `rutil.go`: error handling and codec -/

/-- Source: `func checkErr(err interface{})`: a non-nil error ends the process with
status 1. -/
def checkErr {ε : Type} (err : Option ε) : Except Fault Unit :=
  match err with
  | none => .ok ()
  | some _ => .error (.exit 1)

/-- Source: `func (r *rutil) writeHeader(f io.Writer, keys_c int) int`.  The
receiver is not used by the four codec functions and is left out. -/
def writeHeader (f : Writer) (keys_c : Int) : Except Fault Int × Writer :=
  let h : FileHeader :=
    { Magic := (0x52, 0x44, 0x4d, 0x50), Version := toByte 0x01, Keys := uint64 keys_c }
  match binary.Write f (.header h) with
  | (err, f1) =>
    match checkErr err with
    | .error e => (.error e, f1)
    | .ok _ => (.ok (binary.Size (.header h)), f1)

/-- Source: `func (r *rutil) readHeader(f io.Reader) FileHeader`: the result of
`binary.Read` is dropped. -/
def readHeader (f : Reader) : FileHeader × Reader :=
  let h : FileHeader := FileHeader.zero
  match binary.ReadHeader f h with
  | ((h1, _), f1) => (h1, f1)

/-- Source: `func (r *rutil) writeDump(f io.Writer, d KeyDump) int`. -/
def writeDump (f : Writer) (d : KeyDump) : Except Fault Int × Writer :=
  let size : Int := binary.Size (.int64 d.Pttl) +
    binary.Size (.uint64 d.KeyL) +
    binary.Size (.bytes d.Key) +
    binary.Size (.uint64 d.DumpL) +
    binary.Size (.bytes d.Dump)
  match binary.Write f (.int64 d.Pttl) with
  | (err, f1) =>
  match checkErr err with
  | .error e => (.error e, f1)
  | .ok _ =>
  match binary.Write f1 (.uint64 d.KeyL) with
  | (err, f2) =>
  match checkErr err with
  | .error e => (.error e, f2)
  | .ok _ =>
  match binary.Write f2 (.bytes d.Key) with
  | (err, f3) =>
  match checkErr err with
  | .error e => (.error e, f3)
  | .ok _ =>
  match binary.Write f3 (.uint64 d.DumpL) with
  | (err, f4) =>
  match checkErr err with
  | .error e => (.error e, f4)
  | .ok _ =>
  match binary.Write f4 (.bytes d.Dump) with
  | (err, f5) =>
  match checkErr err with
  | .error e => (.error e, f5)
  | .ok _ => (.ok size, f5)

/-- Source: `func (r *rutil) readDump(f io.Reader) KeyDump`: every result of
`binary.Read` is dropped; the two buffers are allocated from the lengths
just read. -/
def readDump (maxAlloc : Nat) (f : Reader) : Except Fault KeyDump × Reader :=
  let d : KeyDump := KeyDump.zero
  match binary.ReadInt64 f d.Pttl with
  | ((p, _), f1) =>
  let d : KeyDump := { d with Pttl := p }
  match binary.ReadUint64 f1 d.KeyL with
  | ((kl, _), f2) =>
  let d : KeyDump := { d with KeyL := kl }
  match make maxAlloc d.KeyL with
  | .error e => (.error e, f2)
  | .ok key0 =>
  let d : KeyDump := { d with Key := key0 }
  match binary.ReadBytes f2 d.Key with
  | ((key, _), f3) =>
  let d : KeyDump := { d with Key := key }
  match binary.ReadUint64 f3 d.DumpL with
  | ((dl, _), f4) =>
  let d : KeyDump := { d with DumpL := dl }
  match make maxAlloc d.DumpL with
  | .error e => (.error e, f4)
  | .ok dump0 =>
  let d : KeyDump := { d with Dump := dump0 }
  match binary.ReadBytes f4 d.Dump with
  | ((dump, _), f5) =>
  let d : KeyDump := { d with Dump := dump }
  (.ok d, f5)

/-! ## The store and the regular-expression library -/

/-- The commands the dump and restore paths send to the store. -/
inductive Command where
  | AUTH (password : GoString)
  | KEYS (wcard : GoString)
  | PTTL (k : GoString)
  | DUMP (k : GoString)
  | DEL (k : List Byte)
  | RESTORE (k : List Byte) (pttl : Int) (dump : List Byte)
  deriving DecidableEq, Repr

/-- A reply `*redis.Resp`, as the program observes it: the field `Err` and
what the accessors `Int64()`, `Bytes()` and `List()` return. -/
structure Resp where
  Err : Option Error
  Int64 : Int × Option Error
  Bytes : List Byte × Option Error
  List : List GoString × Option Error

/-- What lies outside the process: whether dialling `host:port` fails, and
the reply of the server to a command given the commands it received before
on the connection. -/
structure World where
  dialErr : GoString → Int → Option Error
  respond : List Command → Command → Resp

/-- A connection `*redis.Client`, identified with the commands sent on it. -/
structure Conn where
  sent : List Command
  deriving DecidableEq, Repr

/-- The call `cli.Cmd(...)`: the reply of the server, and the connection
with the command logged. -/
def Conn.Cmd (w : World) (cli : Conn) (c : Command) : Resp × Conn :=
  (w.respond cli.sent c, { sent := cli.sent ++ [c] })

/-- The receiver: `type rutil struct`; `cli` is nil until the first use. -/
structure rutil where
  Host : GoString
  Port : Int
  Auth : GoString
  cli : Option Conn
  deriving DecidableEq, Repr

/-- The package `regexp`: `compile` is `regexp.Compile`, which gives no
matcher for a malformed pattern. -/
structure Regexp where
  compile : GoString → Option (GoString → Bool)

/-- The call `regexp.MatchString(pattern, s)`: `(false, err)` when the
pattern does not compile. -/
def Regexp.MatchString (re : Regexp) (pattern s : GoString) : Bool × Option Error :=
  match re.compile pattern with
  | none => (false, some "error parsing regexp")
  | some m => (m s, none)

/-! ## `rutil.go`: connection, selector, dump and restore -/

/-- Source: `func (r *rutil) Client() *redis.Client`: dial and authenticate on the
first call, the stored connection afterwards. -/
def rutil.Client (w : World) (r : rutil) : Except Fault Conn × rutil :=
  match r.cli with
  | none =>
    match checkErr (w.dialErr r.Host r.Port) with
    | .error e => (.error e, r)
    | .ok _ =>
      let cli : Conn := { sent := [] }
      if r.Auth ≠ [] then
        match cli.Cmd w (.AUTH r.Auth) with
        | (res, cli1) =>
          match checkErr res.Err with
          | .error e => (.error e, r)
          | .ok _ => (.ok cli1, { r with cli := some cli1 })
      else
        (.ok cli, { r with cli := some cli })
  | some cli => (.ok cli, r)

/-- Source: `func invertibleMatch(s string, r string, v bool) bool`: the error of
`regexp.MatchString` is discarded. -/
def invertibleMatch (re : Regexp) (s : GoString) (r : GoString) (v : Bool) : Bool :=
  if r = [] then
    true
  else
    match re.MatchString r s with
    | (m, _) => if v then !m else m

/-- Source: `func (r *rutil) getKeys(wcard string, regex string, invert bool) ([]string, int)`. -/
def getKeys (w : World) (re : Regexp) (r : rutil) (wcard regex : GoString) (invert : Bool) :
    Except Fault (List GoString × Int) × rutil :=
  match r.Client w with
  | (.error e, r1) => (.error e, r1)
  | (.ok cli, r1) =>
  match cli.Cmd w (.KEYS wcard) with
  | (res, cli1) =>
  let r2 : rutil := { r1 with cli := some cli1 }
  match checkErr res.Err with
  | .error e => (.error e, r2)
  | .ok _ =>
  match res.List with
  | (l, err) =>
  match checkErr err with
  | .error e => (.error e, r2)
  | .ok _ =>
  let vsf : List GoString :=
    l.foldl (fun vsf v => if invertibleMatch re v regex invert then vsf ++ [v] else vsf) []
  (.ok (vsf, len vsf), r2)

/-- Source: `func (r *rutil) dumpKey(k string) KeyDump`. -/
def dumpKey (w : World) (r : rutil) (k : GoString) : Except Fault KeyDump × rutil :=
  let d : KeyDump := { KeyDump.zero with Key := k, KeyL := uint64 (len k) }
  match r.Client w with
  | (.error e, r1) => (.error e, r1)
  | (.ok cli, r1) =>
  match cli.Cmd w (.PTTL k) with
  | (res, cli1) =>
  let r2 : rutil := { r1 with cli := some cli1 }
  match checkErr res.Err with
  | .error e => (.error e, r2)
  | .ok _ =>
  match res.Int64 with
  | (p, err) =>
  let d : KeyDump := { d with Pttl := p }
  let d : KeyDump := if d.Pttl < 0 then { d with Pttl := 0 } else d
  match checkErr err with
  | .error e => (.error e, r2)
  | .ok _ =>
  match cli1.Cmd w (.DUMP k) with
  | (res, cli2) =>
  let r3 : rutil := { r2 with cli := some cli2 }
  match checkErr res.Err with
  | .error e => (.error e, r3)
  | .ok _ =>
  match res.Bytes with
  | (b, err) =>
  let d : KeyDump := { d with Dump := b }
  match checkErr err with
  | .error e => (.error e, r3)
  | .ok _ =>
  let d : KeyDump := { d with DumpL := uint64 (len d.Dump) }
  (.ok d, r3)

/-- Source: `func (r *rutil) restoreKey(d KeyDump, del bool, ignor bool) int`. -/
def restoreKey (w : World) (r : rutil) (d : KeyDump) (del : Bool) (ignor : Bool) :
    Except Fault Int × rutil :=
  match r.Client w with
  | (.error e, r1) => (.error e, r1)
  | (.ok cli, r1) =>
  let step : Except Fault Unit × Conn :=
    if del then
      match cli.Cmd w (.DEL d.Key) with
      | (res, cli1) => (checkErr res.Err, cli1)
    else (.ok (), cli)
  match step with
  | (.error e, cli1) => (.error e, { r1 with cli := some cli1 })
  | (.ok _, cli1) =>
  match cli1.Cmd w (.RESTORE d.Key d.Pttl d.Dump) with
  | (res, cli2) =>
  let r2 : rutil := { r1 with cli := some cli2 }
  if ignor = true then
    if res.Err ≠ none then (.ok 0, r2) else (.ok 1, r2)
  else
    match checkErr res.Err with
    | .error e => (.error e, r2)
    | .ok _ => (.ok 1, r2)

/-! ## The loops around the codec and the restore step -/

/-- Modelled from the spec: the dump loop of section 4.3, whose Go code is
not in `rutil.go`.  `writeDump` runs on every record in order; the result is
the total of the sizes returned, and a fault ends the loop. -/
def writeDumps (f : Writer) : List KeyDump → Except Fault Int × Writer
  | [] => (.ok 0, f)
  | d :: ds =>
    match writeDump f d with
    | (.error e, f1) => (.error e, f1)
    | (.ok n, f1) =>
      match writeDumps f1 ds with
      | (.error e, f2) => (.error e, f2)
      | (.ok m, f2) => (.ok (n + m), f2)

/-- Modelled from the spec: a dump of section 4.3, whose Go code is not in
`rutil.go`.  `writeHeader` runs with the number of records, then `writeDump`
on each record in order; the result is the total of the sizes returned. -/
def writeFile (f : Writer) (ds : List KeyDump) : Except Fault Int × Writer :=
  match writeHeader f (len ds) with
  | (.error e, f1) => (.error e, f1)
  | (.ok n, f1) =>
    match writeDumps f1 ds with
    | (.error e, f2) => (.error e, f2)
    | (.ok m, f2) => (.ok (n + m), f2)

/-- Modelled from the spec: the read loop of a restore, whose Go code is not
in `rutil.go`.  `readDump` runs `n` times and the records are collected in
the order read. -/
def readDumps (maxAlloc : Nat) : Nat → Reader → Except Fault (List KeyDump) × Reader
  | 0, f => (.ok [], f)
  | n + 1, f =>
    match readDump maxAlloc f with
    | (.error e, f1) => (.error e, f1)
    | (.ok d, f1) =>
      match readDumps maxAlloc n f1 with
      | (.error e, f2) => (.error e, f2)
      | (.ok ds, f2) => (.ok (d :: ds), f2)

/-- Modelled from the spec: the restore loop of section 4.4, whose Go code is
not in `rutil.go`.  `restoreKey` runs on each record in order and its results
are summed; a fault ends the loop, and the result then still carries the
number of keys restored before it. -/
def restoreAll (w : World) (r : rutil) (del ignor : Bool) :
    List KeyDump → Int → (Except Fault Unit × Int) × rutil
  | [], count => ((.ok (), count), r)
  | d :: ds, count =>
    match restoreKey w r d del ignor with
    | (.error e, r1) => ((.error e, count), r1)
    | (.ok n, r1) => restoreAll w r1 del ignor ds (count + n)

/-! ## Reference notions for the file format -/

/-- The number a byte string denotes when read most significant byte first. -/
def bigEndianValue (bs : List Byte) : Nat :=
  bs.foldl (fun acc b => acc * 256 + b.val) 0

/-- The byte string `bs` is the 8-byte big-endian encoding of `n`. -/
def IsBigEndian8 (bs : List Byte) (n : Nat) : Prop :=
  bs.length = 8 ∧ bigEndianValue bs = n

/-- The unsigned 64-bit number that stands for `x` in two's complement. -/
def twosComplement64 (x : Int) : Nat :=
  if 0 ≤ x then x.toNat else (x + 2 ^ 64).toNat

/-- The bytes of one record in the dump file: the five fields in order. -/
def recordBytes (d : KeyDump) : List Byte :=
  binary.PutUint64 (uint64 d.Pttl) ++ binary.PutUint64 d.KeyL ++ d.Key ++
    binary.PutUint64 d.DumpL ++ d.Dump

/-- The bytes of the file header for `n` records. -/
def headerBytes (n : Nat) : List Byte :=
  [0x52, 0x44, 0x4d, 0x50] ++ [0x01] ++ binary.PutUint64 n

/-- The length in bytes of a sequence of records in the dump file. -/
def recordsSize : List KeyDump → Nat
  | [] => 0
  | d :: ds => (24 + d.Key.length + d.Dump.length) + recordsSize ds

/-! ## Sample inputs -/

/-- A record with a one-byte key, a two-byte value and no expiry. -/
def sampleRecord : KeyDump :=
  { Key := [0x61], KeyL := 1, Dump := [0x07, 0x09], DumpL := 2, Pttl := 0 }

/-- A record with a two-byte key, an empty value and a positive TTL. -/
def sampleRecord2 : KeyDump :=
  { Key := [0x62, 0x31], KeyL := 2, Dump := [], DumpL := 0, Pttl := 1500 }

/-- An empty writer that accepts 128 bytes. -/
def sampleWriter : Writer := { buf := [], room := 128 }

/-- A stream that holds a record with TTL 0 and key `a`, declares a value of
5 bytes, and ends after 2 of them. -/
def truncatedStream : List Byte :=
  [0, 0, 0, 0, 0, 0, 0, 0,
   0, 0, 0, 0, 0, 0, 0, 1,
   0x61,
   0, 0, 0, 0, 0, 0, 0, 5,
   0x07, 0x09]

/-- The commands `restoreKey` sends before `RESTORE`: a `DEL` of the key when
`del` is set. -/
def delCmds (del : Bool) (d : KeyDump) : List Command :=
  if del then [Command.DEL d.Key] else []

/-- The commands `restoreKey` sends for a record whose `DEL` does not fail. -/
def restoreCmds (del : Bool) (d : KeyDump) : List Command :=
  delCmds del d ++ [Command.RESTORE d.Key d.Pttl d.Dump]

/-- The replies of a store carry Go values: an `int64` from `Int64()` and a
byte slice, whose length is an `int`, from `Bytes()`. -/
def World.Typed (w : World) : Prop :=
  ∀ (log : List Command) (c : Command),
    -(2 ^ 63 : Int) ≤ (w.respond log c).Int64.1 ∧ (w.respond log c).Int64.1 < 2 ^ 63 ∧
    (w.respond log c).Bytes.1.length < 2 ^ 63

/-- A status reply such as `OK`. -/
def statusResp : Resp :=
  { Err := none, Int64 := (0, some "not an integer"), Bytes := ([0x4f, 0x4b], none),
    List := ([], some "not an array") }

/-- An integer reply. -/
def intResp (i : Int) : Resp :=
  { Err := none, Int64 := (i, none), Bytes := ([], some "not a string"),
    List := ([], some "not an array") }

/-- A bulk string reply. -/
def bulkResp (b : List Byte) : Resp :=
  { Err := none, Int64 := (0, some "not an integer"), Bytes := (b, none),
    List := ([], some "not an array") }

/-- An array reply of bulk strings. -/
def listResp (l : List GoString) : Resp :=
  { Err := none, Int64 := (0, some "not an integer"), Bytes := ([], some "not a string"),
    List := (l, none) }

/-- An error reply. -/
def failureResp (e : Error) : Resp :=
  { Err := some e, Int64 := (0, some e), Bytes := ([], some e), List := ([], some e) }

/-- The key name `a1`. -/
def keyA1 : GoString := [0x61, 0x31]

/-- The key name `a2`. -/
def keyA2 : GoString := [0x61, 0x32]

/-- The key name `b1`. -/
def keyB1 : GoString := [0x62, 0x31]

/-- A store that holds the keys `a1`, `a2`, `b1`, none of which expires,
each with the value 07 09, and that refuses to restore the key `a2`. -/
def sampleWorld : World where
  dialErr _ _ := none
  respond _ c :=
    match c with
    | .AUTH _ => statusResp
    | .KEYS _ => listResp [keyA1, keyA2, keyB1]
    | .PTTL _ => intResp (-1)
    | .DUMP _ => bulkResp [0x07, 0x09]
    | .DEL _ => intResp 1
    | .RESTORE k _ _ => if k = keyA2 then failureResp "BUSYKEY" else statusResp

/-- A receiver that has not connected yet and uses no password. -/
def sampleRutil : rutil := { Host := [], Port := 6379, Auth := [], cli := none }

/-- The record of key `k` with value 07 09 and no expiry. -/
def recordOf (k : GoString) : KeyDump :=
  { Key := k, KeyL := 2, Dump := [0x07, 0x09], DumpL := 2, Pttl := 0 }

/-- Whether a byte is an ASCII letter or digit. -/
def isAlnum (b : Byte) : Bool :=
  (0x30 ≤ b.val && b.val ≤ 0x39) || (0x41 ≤ b.val && b.val ≤ 0x5a) ||
    (0x61 ≤ b.val && b.val ≤ 0x7a)

/-- A stand-in for the package `regexp` that knows the patterns made of `^`
followed by letters and digits, which match the strings that start with
those letters and digits, and rejects every other pattern.  It agrees with
`regexp` on the patterns `^a` (well-formed) and `(` (malformed). -/
def sampleRegexp : Regexp where
  compile p :=
    match p with
    | 0x5e :: lit => if lit.all isAlnum then some (fun s => lit.isPrefixOf s) else none
    | _ => none

/-- The glob `*`. -/
def patStar : GoString := [0x2a]

/-- The regular expression `^a`. -/
def patHatA : GoString := [0x5e, 0x61]

/-- The malformed regular expression `(`. -/
def patOpenParen : GoString := [0x28]

/-! ## Lemmas on the integer encodings -/

theorem toByte_val (x : Nat) : (toByte x).val = x % 256 := rfl

theorem PutUint64_length (v : Nat) : (binary.PutUint64 v).length = 8 := rfl

theorem Uint64_PutUint64 (v : Nat) (h : v < 2 ^ 64) :
    binary.Uint64 (binary.PutUint64 v) = v := by
  simp only [binary.PutUint64, binary.Uint64, toByte_val]
  norm_num at h ⊢
  omega

theorem bigEndianValue_PutUint64 (v : Nat) (h : v < 2 ^ 64) :
    bigEndianValue (binary.PutUint64 v) = v := by
  simp only [binary.PutUint64, bigEndianValue, List.foldl, toByte_val]
  norm_num at h ⊢
  omega

theorem isBigEndian8_PutUint64 (v : Nat) (h : v < 2 ^ 64) :
    IsBigEndian8 (binary.PutUint64 v) v :=
  ⟨PutUint64_length v, bigEndianValue_PutUint64 v h⟩

theorem uint64_lt (x : Int) : uint64 x < 2 ^ 64 := by
  unfold uint64
  have h : x % 2 ^ 64 < 2 ^ 64 := Int.emod_lt_of_pos x (by norm_num)
  have h0 : 0 ≤ x % 2 ^ 64 := Int.emod_nonneg x (by norm_num)
  omega

theorem uint64_eq_twosComplement64 (x : Int) (h1 : -(2 ^ 63 : Int) ≤ x) (h2 : x < 2 ^ 63) :
    uint64 x = twosComplement64 x := by
  unfold uint64 twosComplement64
  split <;> omega

theorem uint64_of_nonneg (x : Int) (h1 : 0 ≤ x) (h2 : x < 2 ^ 64) : uint64 x = x.toNat := by
  unfold uint64
  omega

theorem int64_uint64 (x : Int) (h1 : -(2 ^ 63 : Int) ≤ x) (h2 : x < 2 ^ 63) :
    int64 (uint64 x) = x := by
  unfold int64 uint64
  split <;> omega

/-! ## Lemmas on the writer and the reader -/

theorem Write_fits (w : Writer) (bs : List Byte) (h : bs.length ≤ w.room) :
    w.Write bs = (none, { buf := w.buf ++ bs, room := w.room - bs.length }) := by
  simp [Writer.Write, h]

theorem ReadFull_append (bs rest : List Byte) :
    ReadFull (bs ++ rest) bs.length = (some bs, rest) := by
  simp [ReadFull]

theorem ReadFull_eight (v : Nat) (rest : List Byte) :
    ReadFull (binary.PutUint64 v ++ rest) 8 = (some (binary.PutUint64 v), rest) :=
  ReadFull_append (binary.PutUint64 v) rest

theorem recordBytes_length (d : KeyDump) :
    (recordBytes d).length = 24 + d.Key.length + d.Dump.length := by
  simp only [recordBytes, List.length_append, PutUint64_length]
  omega

theorem headerBytes_length (n : Nat) : (headerBytes n).length = 13 := rfl

theorem writeHeader_fits (f : Writer) (n : Int) (h : 13 ≤ f.room) :
    writeHeader f n =
      (.ok 13, { buf := f.buf ++ headerBytes (uint64 n), room := f.room - 13 }) := by
  have hlen : (binary.encode (.header
      { Magic := (0x52, 0x44, 0x4d, 0x50), Version := toByte 0x01, Keys := uint64 n })).length
      ≤ f.room := by
    simpa [binary.encode, PutUint64_length] using h
  simp only [writeHeader, binary.Write, Write_fits f _ hlen, checkErr]
  simp [binary.encode, binary.Size, headerBytes, PutUint64_length, toByte]

theorem writeDump_fits (f : Writer) (d : KeyDump)
    (h : 24 + d.Key.length + d.Dump.length ≤ f.room) :
    writeDump f d =
      (.ok (24 + len d.Key + len d.Dump),
        { buf := f.buf ++ recordBytes d, room := f.room - (24 + d.Key.length + d.Dump.length) }) := by
  have h1 : (binary.encode (.int64 d.Pttl)).length ≤ f.room := by
    simp only [binary.encode, PutUint64_length]; omega
  simp only [writeDump, binary.Write, Write_fits f _ h1, checkErr]
  have h2 : (binary.encode (.uint64 d.KeyL)).length ≤
      f.room - (binary.encode (.int64 d.Pttl)).length := by
    simp only [binary.encode, PutUint64_length]; omega
  rw [Write_fits _ _ h2]
  have h3 : (binary.encode (.bytes d.Key)).length ≤
      f.room - (binary.encode (.int64 d.Pttl)).length - (binary.encode (.uint64 d.KeyL)).length := by
    simp only [binary.encode, PutUint64_length]; omega
  simp only []
  rw [Write_fits _ _ h3]
  have h4 : (binary.encode (.uint64 d.DumpL)).length ≤
      f.room - (binary.encode (.int64 d.Pttl)).length - (binary.encode (.uint64 d.KeyL)).length
        - (binary.encode (.bytes d.Key)).length := by
    simp only [binary.encode, PutUint64_length]; omega
  simp only []
  rw [Write_fits _ _ h4]
  have h5 : (binary.encode (.bytes d.Dump)).length ≤
      f.room - (binary.encode (.int64 d.Pttl)).length - (binary.encode (.uint64 d.KeyL)).length
        - (binary.encode (.bytes d.Key)).length - (binary.encode (.uint64 d.DumpL)).length := by
    simp only [binary.encode, PutUint64_length]; omega
  simp only []
  rw [Write_fits _ _ h5]
  simp only [binary.encode, binary.Size, PutUint64_length, recordBytes, List.append_assoc,
    Prod.mk.injEq, Except.ok.injEq, Writer.mk.injEq, true_and]
  refine ⟨by omega, by omega⟩

theorem readHeader_headerBytes (n : Nat) (hn : n < 2 ^ 64) (rest : List Byte) :
    readHeader (headerBytes n ++ rest) =
      ({ Magic := (0x52, 0x44, 0x4d, 0x50), Version := 0x01, Keys := n }, rest) := by
  have h := ReadFull_append (headerBytes n) rest
  rw [headerBytes_length] at h
  simp only [readHeader, binary.ReadHeader, h]
  simp only [headerBytes, List.cons_append, List.nil_append, Uint64_PutUint64 n hn]

theorem make_fits (maxAlloc n : Nat) (h : n ≤ maxAlloc) :
    make maxAlloc n = .ok (List.replicate n 0) := by
  simp [make, h]

theorem readDump_recordBytes (maxAlloc : Nat) (d : KeyDump) (ht : d.Typed)
    (hk : d.KeyL = d.Key.length) (hd : d.DumpL = d.Dump.length)
    (hka : d.Key.length ≤ maxAlloc) (hda : d.Dump.length ≤ maxAlloc) (rest : List Byte) :
    readDump maxAlloc (recordBytes d ++ rest) = (.ok d, rest) := by
  obtain ⟨hp1, hp2, hkl, hdl⟩ := ht
  have e1 : ReadFull (recordBytes d ++ rest) 8 =
      (some (binary.PutUint64 (uint64 d.Pttl)),
        binary.PutUint64 d.KeyL ++ (d.Key ++ (binary.PutUint64 d.DumpL ++ (d.Dump ++ rest)))) := by
    simp only [recordBytes, List.append_assoc]
    exact ReadFull_eight _ _
  have e3 : ReadFull (d.Key ++ (binary.PutUint64 d.DumpL ++ (d.Dump ++ rest)))
      (List.replicate d.KeyL (0 : Byte)).length =
      (some d.Key, binary.PutUint64 d.DumpL ++ (d.Dump ++ rest)) := by
    rw [List.length_replicate, hk]
    exact ReadFull_append _ _
  have e5 : ReadFull (d.Dump ++ rest) (List.replicate d.DumpL (0 : Byte)).length =
      (some d.Dump, rest) := by
    rw [List.length_replicate, hd]
    exact ReadFull_append _ _
  simp only [readDump, binary.ReadInt64, binary.ReadUint64, binary.ReadBytes, KeyDump.zero, e1,
    ReadFull_eight, Uint64_PutUint64 _ (uint64_lt d.Pttl), Uint64_PutUint64 _ hkl,
    Uint64_PutUint64 _ hdl, int64_uint64 _ hp1 hp2, make_fits maxAlloc d.KeyL (hk ▸ hka),
    make_fits maxAlloc d.DumpL (hd ▸ hda), e3, e5]

theorem writeDumps_fits (ds : List KeyDump) (f : Writer) (h : recordsSize ds ≤ f.room) :
    writeDumps f ds =
      (.ok (recordsSize ds : Int),
        { buf := f.buf ++ (ds.map recordBytes).flatten, room := f.room - recordsSize ds }) := by
  induction ds generalizing f with
  | nil => simp [writeDumps, recordsSize]
  | cons d ds ih =>
    simp only [recordsSize] at h
    have h1 : 24 + d.Key.length + d.Dump.length ≤ f.room := by omega
    have h2 : recordsSize ds ≤ f.room - (24 + d.Key.length + d.Dump.length) := by omega
    have ih1 := ih (Writer.mk (f.buf ++ recordBytes d)
      (f.room - (24 + d.Key.length + d.Dump.length))) h2
    simp only [writeDumps, writeDump_fits f d h1, ih1, recordsSize, len, List.map_cons,
      List.flatten_cons, List.append_assoc, Prod.mk.injEq, Except.ok.injEq, Writer.mk.injEq,
      true_and]
    refine ⟨by push_cast; ring, by omega⟩

theorem readDumps_recordBytes (maxAlloc : Nat) (ds : List KeyDump)
    (hwf : ∀ d ∈ ds, d.Typed ∧ d.KeyL = d.Key.length ∧ d.DumpL = d.Dump.length ∧
      d.Key.length ≤ maxAlloc ∧ d.Dump.length ≤ maxAlloc) (rest : List Byte) :
    readDumps maxAlloc ds.length ((ds.map recordBytes).flatten ++ rest) = (.ok ds, rest) := by
  induction ds with
  | nil => simp [readDumps]
  | cons d ds ih =>
    obtain ⟨ht, hk, hd, hka, hda⟩ := hwf d (List.mem_cons_self d ds)
    have ih1 := ih (fun x hx => hwf x (List.mem_cons_of_mem d hx))
    simp only [List.length_cons, readDumps, List.map_cons, List.flatten_cons, List.append_assoc,
      readDump_recordBytes maxAlloc d ht hk hd hka hda, ih1]

/-! ## The codec claims -/

/-- C1: a file written by `writeHeader` with the number of records followed by
`writeDump` of each record, read back by `readHeader` and then `readDump`
once per record, gives the header (magic 52 44 4D 50, version 1, `Keys` the
number of records) and the same records in the same order, and leaves no byte
unread.  The records are those whose `KeyL` and `DumpL` are the lengths of
`Key` and `Dump`. -/
theorem file_round_trip (maxAlloc : Nat) (f : Writer) (ds : List KeyDump)
    (hn : ds.length < 2 ^ 63)
    (hwf : ∀ d ∈ ds, d.Typed ∧ d.KeyL = d.Key.length ∧ d.DumpL = d.Dump.length ∧
      d.Key.length ≤ maxAlloc ∧ d.Dump.length ≤ maxAlloc)
    (hroom : 13 + recordsSize ds ≤ f.room) :
    ∃ out : List Byte,
      (∃ n, (writeFile f ds).1 = .ok n) ∧
      (writeFile f ds).2.buf = f.buf ++ out ∧
      (readHeader out).1 =
        { Magic := (0x52, 0x44, 0x4d, 0x50), Version := 0x01, Keys := ds.length } ∧
      readDumps maxAlloc ds.length (readHeader out).2 = (.ok ds, []) := by
  have h13 : 13 ≤ f.room := by omega
  have hrec : recordsSize ds ≤ f.room - 13 := by omega
  have hlen : uint64 (len ds) = ds.length := by
    have := uint64_of_nonneg (len ds) (by simp [len]) (by simp only [len]; omega)
    simpa [len] using this
  have hw := writeDumps_fits ds (Writer.mk (f.buf ++ headerBytes (uint64 (len ds))) (f.room - 13)) hrec
  simp only [] at hw
  refine ⟨headerBytes ds.length ++ (ds.map recordBytes).flatten, ?_, ?_, ?_, ?_⟩
  · exact ⟨13 + (recordsSize ds : Int), by simp only [writeFile, writeHeader_fits f _ h13, hw]⟩
  · simp only [writeFile, writeHeader_fits f _ h13, hw]
    simp only [hlen, List.append_assoc]
  · rw [readHeader_headerBytes ds.length (by omega)]
  · rw [readHeader_headerBytes ds.length (by omega)]
    have := readDumps_recordBytes maxAlloc ds hwf []
    simpa using this

/-- C2: the bytes `writeDump` writes for a record are, in this order, the
8-byte big-endian two's-complement encoding of `Pttl`, the 8-byte big-endian
encoding of `KeyL`, the bytes of `Key`, the 8-byte big-endian encoding of
`DumpL`, and the bytes of `Dump`, with nothing between or after them. -/
theorem writeDump_layout (f : Writer) (d : KeyDump) (ht : d.Typed)
    (hroom : 24 + d.Key.length + d.Dump.length ≤ f.room) :
    ∃ p kl dl : List Byte,
      IsBigEndian8 p (twosComplement64 d.Pttl) ∧ IsBigEndian8 kl d.KeyL ∧
      IsBigEndian8 dl d.DumpL ∧
      (∃ n, (writeDump f d).1 = .ok n) ∧
      (writeDump f d).2.buf = f.buf ++ (p ++ kl ++ d.Key ++ dl ++ d.Dump) := by
  obtain ⟨hp1, hp2, hkl, hdl⟩ := ht
  refine ⟨binary.PutUint64 (uint64 d.Pttl), binary.PutUint64 d.KeyL, binary.PutUint64 d.DumpL,
    ?_, isBigEndian8_PutUint64 _ hkl, isBigEndian8_PutUint64 _ hdl, ?_, ?_⟩
  · rw [← uint64_eq_twosComplement64 d.Pttl hp1 hp2]
    exact isBigEndian8_PutUint64 _ (uint64_lt d.Pttl)
  · exact ⟨_, by rw [writeDump_fits f d hroom]⟩
  · rw [writeDump_fits f d hroom]
    simp [recordBytes]

/-- C3: for a non-negative key count `n`, `writeHeader` writes exactly 13
bytes, the magic 52 44 4D 50, the version byte 01 and the 8-byte big-endian
encoding of `n`, and returns 13. -/
theorem writeHeader_layout (f : Writer) (n : Int) (h0 : 0 ≤ n) (h1 : n < 2 ^ 63)
    (hroom : 13 ≤ f.room) :
    ∃ c : List Byte,
      IsBigEndian8 c n.toNat ∧
      ([0x52, 0x44, 0x4d, 0x50] ++ [0x01] ++ c : List Byte).length = 13 ∧
      writeHeader f n =
        (.ok 13, { buf := f.buf ++ ([0x52, 0x44, 0x4d, 0x50] ++ [0x01] ++ c),
                   room := f.room - 13 }) := by
  have hu : uint64 n = n.toNat := uint64_of_nonneg n h0 (by omega)
  refine ⟨binary.PutUint64 n.toNat, isBigEndian8_PutUint64 _ (by omega), rfl, ?_⟩
  rw [writeHeader_fits f n hroom, hu]
  rfl

/-- C4, as the code has it: for a record whose `KeyL` and `DumpL` are the
lengths of `Key` and `Dump`, `writeDump` writes `24 + KeyL + DumpL` bytes and
returns that number. -/
theorem writeDump_size (f : Writer) (d : KeyDump)
    (hk : d.KeyL = d.Key.length) (hd : d.DumpL = d.Dump.length)
    (hroom : 24 + d.Key.length + d.Dump.length ≤ f.room) :
    ∃ out : List Byte,
      out.length = 24 + d.KeyL + d.DumpL ∧
      (writeDump f d).2.buf = f.buf ++ out ∧
      (writeDump f d).1 = .ok (24 + (d.KeyL : Int) + (d.DumpL : Int)) := by
  refine ⟨recordBytes d, ?_, ?_, ?_⟩
  · rw [recordBytes_length, hk, hd]
  · rw [writeDump_fits f d hroom]
  · rw [writeDump_fits f d hroom, hk, hd]
    rfl

/-- Witness for C1: a file of two records, written into an empty writer. -/
theorem file_round_trip_witness :
    [sampleRecord, sampleRecord2].length < 2 ^ 63 ∧
    13 + recordsSize [sampleRecord, sampleRecord2] ≤ sampleWriter.room ∧
    ∃ out : List Byte,
      (∃ n, (writeFile sampleWriter [sampleRecord, sampleRecord2]).1 = .ok n) ∧
      (writeFile sampleWriter [sampleRecord, sampleRecord2]).2.buf = sampleWriter.buf ++ out ∧
      (readHeader out).1 =
        { Magic := (0x52, 0x44, 0x4d, 0x50), Version := 0x01,
          Keys := [sampleRecord, sampleRecord2].length } ∧
      readDumps 1024 [sampleRecord, sampleRecord2].length (readHeader out).2 =
        (.ok [sampleRecord, sampleRecord2], []) :=
  ⟨by decide, by decide,
    file_round_trip 1024 sampleWriter [sampleRecord, sampleRecord2] (by decide)
      (by decide) (by decide)⟩

/-- Witness for C2: the layout of `sampleRecord`. -/
theorem writeDump_layout_witness :
    sampleRecord.Typed ∧
    24 + sampleRecord.Key.length + sampleRecord.Dump.length ≤ sampleWriter.room ∧
    ∃ p kl dl : List Byte,
      IsBigEndian8 p (twosComplement64 sampleRecord.Pttl) ∧ IsBigEndian8 kl sampleRecord.KeyL ∧
      IsBigEndian8 dl sampleRecord.DumpL ∧
      (∃ n, (writeDump sampleWriter sampleRecord).1 = .ok n) ∧
      (writeDump sampleWriter sampleRecord).2.buf =
        sampleWriter.buf ++ (p ++ kl ++ sampleRecord.Key ++ dl ++ sampleRecord.Dump) :=
  ⟨by decide, by decide, writeDump_layout sampleWriter sampleRecord (by decide) (by decide)⟩

/-- Witness for C3: the header for 3 keys. -/
theorem writeHeader_layout_witness :
    (0 : Int) ≤ 3 ∧ (3 : Int) < 2 ^ 63 ∧ 13 ≤ sampleWriter.room ∧
    ∃ c : List Byte,
      IsBigEndian8 c (3 : Int).toNat ∧
      ([0x52, 0x44, 0x4d, 0x50] ++ [0x01] ++ c : List Byte).length = 13 ∧
      writeHeader sampleWriter 3 =
        (.ok 13, { buf := sampleWriter.buf ++ ([0x52, 0x44, 0x4d, 0x50] ++ [0x01] ++ c),
                   room := sampleWriter.room - 13 }) :=
  ⟨by decide, by decide, by decide,
    writeHeader_layout sampleWriter 3 (by decide) (by decide) (by decide)⟩

/-- C4 as stated fails: `sampleRecord` has a key of 1 byte and a value of 2
bytes, and `writeDump` writes and returns 27 bytes, not 32 + 1 + 2. -/
theorem writeDump_size_counterexample :
    sampleRecord.KeyL = sampleRecord.Key.length ∧
    sampleRecord.DumpL = sampleRecord.Dump.length ∧
    (writeDump sampleWriter sampleRecord).1 = .ok 27 ∧
    (writeDump sampleWriter sampleRecord).2.buf.length = 27 ∧
    (writeDump sampleWriter sampleRecord).1 ≠
      .ok (32 + (sampleRecord.KeyL : Int) + (sampleRecord.DumpL : Int)) ∧
    (writeDump sampleWriter sampleRecord).2.buf.length ≠
      32 + sampleRecord.KeyL + sampleRecord.DumpL := by
  have h : writeDump sampleWriter sampleRecord =
      (.ok 27, { buf := recordBytes sampleRecord, room := 101 }) := by
    rw [writeDump_fits sampleWriter sampleRecord (by decide)]
    rfl
  refine ⟨rfl, rfl, by rw [h], by rw [h]; rfl, ?_, ?_⟩
  · rw [h]
    intro hc
    injection hc with hc
    revert hc
    decide
  · rw [h]
    decide

/-- Witness for the amended C4: `sampleRecord` is written as 27 bytes. -/
theorem writeDump_size_witness :
    sampleRecord.KeyL = sampleRecord.Key.length ∧
    sampleRecord.DumpL = sampleRecord.Dump.length ∧
    24 + sampleRecord.Key.length + sampleRecord.Dump.length ≤ sampleWriter.room ∧
    ∃ out : List Byte,
      out.length = 24 + sampleRecord.KeyL + sampleRecord.DumpL ∧
      (writeDump sampleWriter sampleRecord).2.buf = sampleWriter.buf ++ out ∧
      (writeDump sampleWriter sampleRecord).1 =
        .ok (24 + (sampleRecord.KeyL : Int) + (sampleRecord.DumpL : Int)) :=
  ⟨rfl, rfl, by decide, writeDump_size sampleWriter sampleRecord rfl rfl (by decide)⟩

theorem ReadFull_short (r : Reader) (n : Nat) (h : r.length < n) :
    ReadFull r n = (none, []) := by
  simp [ReadFull, Nat.not_le.mpr h]

/-- On a stream that holds the TTL, the key and a value length `n`, but fewer
than `n` value bytes, `readDump` returns a record whose value is `n` zero
bytes, and the stream is left empty. -/
theorem readDump_short_value (maxAlloc : Nat) (p : Int) (key value : List Byte) (n : Nat)
    (hp1 : -(2 ^ 63 : Int) ≤ p) (hp2 : p < 2 ^ 63) (hk : key.length < 2 ^ 64)
    (hka : key.length ≤ maxAlloc) (hn : n < 2 ^ 64) (hna : n ≤ maxAlloc)
    (hshort : value.length < n) :
    readDump maxAlloc
        (binary.PutUint64 (uint64 p) ++ binary.PutUint64 key.length ++ key ++
          binary.PutUint64 n ++ value) =
      (.ok { Key := key, KeyL := key.length, Dump := List.replicate n 0, DumpL := n, Pttl := p },
        []) := by
  have e1 : ReadFull (binary.PutUint64 (uint64 p) ++ binary.PutUint64 key.length ++ key ++
      binary.PutUint64 n ++ value) 8 =
      (some (binary.PutUint64 (uint64 p)),
        binary.PutUint64 key.length ++ (key ++ (binary.PutUint64 n ++ value))) := by
    simp only [List.append_assoc]
    exact ReadFull_eight _ _
  have e3 : ReadFull (key ++ (binary.PutUint64 n ++ value))
      (List.replicate key.length (0 : Byte)).length =
      (some key, binary.PutUint64 n ++ value) := by
    rw [List.length_replicate]
    exact ReadFull_append _ _
  have e5 : ReadFull value (List.replicate n (0 : Byte)).length = (none, []) := by
    rw [List.length_replicate]
    exact ReadFull_short value n hshort
  simp only [readDump, binary.ReadInt64, binary.ReadUint64, binary.ReadBytes, KeyDump.zero, e1,
    ReadFull_eight, Uint64_PutUint64 _ (uint64_lt p), Uint64_PutUint64 _ hk,
    Uint64_PutUint64 _ hn, int64_uint64 _ hp1 hp2, make_fits maxAlloc key.length hka,
    make_fits maxAlloc n hna, e3, e5]

/-- C5, what the code does: on `truncatedStream`, which declares a value of 5
bytes and holds 2, `readDump` returns a record, with no fault, whose value is
5 zero bytes; the 2 bytes present are consumed and lost. -/
theorem readDump_truncated_returns_zero_filled :
    readDump 1024 truncatedStream =
      (.ok { Key := [0x61], KeyL := 1, Dump := [0, 0, 0, 0, 0], DumpL := 5, Pttl := 0 }, []) := by
  rfl

/-! ## Lemmas on the connection -/

theorem Client_cached (w : World) (r : rutil) (cli : Conn) (h : r.cli = some cli) :
    r.Client w = (.ok cli, r) := by
  simp [rutil.Client, h]

theorem Client_ok_cli (w : World) (r r1 : rutil) (cli : Conn)
    (h : r.Client w = (.ok cli, r1)) : r1.cli = some cli := by
  unfold rutil.Client at h
  cases hcli : r.cli with
  | some c =>
    simp only [hcli, Prod.mk.injEq, Except.ok.injEq] at h
    obtain ⟨h1, h2⟩ := h
    rw [← h2, hcli, h1]
  | none =>
    simp only [hcli] at h
    cases hd : checkErr (w.dialErr r.Host r.Port) with
    | error e => simp [hd] at h
    | ok u =>
      simp only [hd] at h
      by_cases ha : r.Auth = []
      · simp only [ha, ne_eq, not_true_eq_false, ↓reduceIte, Prod.mk.injEq,
          Except.ok.injEq] at h
        obtain ⟨h1, h2⟩ := h
        rw [← h2, ← h1]
      · simp only [ne_eq, ha, not_false_eq_true, ↓reduceIte] at h
        cases hc : checkErr ((Conn.Cmd w { sent := [] } (Command.AUTH r.Auth)).1).Err with
        | error e => simp [hc] at h
        | ok u2 =>
          simp only [hc, Prod.mk.injEq, Except.ok.injEq] at h
          obtain ⟨h1, h2⟩ := h
          rw [← h2, ← h1]

theorem checkErr_none {ε : Type} : checkErr (none : Option ε) = .ok () := rfl

theorem checkErr_ne_none {ε : Type} (e : Option ε) (h : e ≠ none) :
    checkErr e = .error (.exit 1) := by
  cases e with
  | none => exact absurd rfl h
  | some x => rfl

/-! ## The dump step -/

theorem dumpKey_of_replies (w : World) (r r1 : rutil) (cli : Conn) (k : GoString) (t : Int)
    (v : List Byte) (hc : r.Client w = (.ok cli, r1))
    (hp : (w.respond cli.sent (.PTTL k)).Err = none)
    (hpi : (w.respond cli.sent (.PTTL k)).Int64 = (t, none))
    (hd : (w.respond (cli.sent ++ [.PTTL k]) (.DUMP k)).Err = none)
    (hdb : (w.respond (cli.sent ++ [.PTTL k]) (.DUMP k)).Bytes = (v, none)) :
    dumpKey w r k =
      (.ok { Key := k, KeyL := uint64 (len k), Dump := v, DumpL := uint64 (len v),
             Pttl := if t < 0 then 0 else t },
        { r1 with cli := some { sent := cli.sent ++ [.PTTL k] ++ [.DUMP k] } }) := by
  simp only [dumpKey, hc, Conn.Cmd, hp, hpi, hd, hdb, checkErr, KeyDump.zero]
  split <;> rfl

theorem dumpKey_returns (w : World) (r r2 : rutil) (k : GoString) (d : KeyDump)
    (h : dumpKey w r k = (.ok d, r2)) :
    ∃ (cli : Conn) (r1 : rutil), r.Client w = (.ok cli, r1) ∧
      (w.respond cli.sent (.PTTL k)).Err = none ∧
      (w.respond cli.sent (.PTTL k)).Int64.2 = none ∧
      (w.respond (cli.sent ++ [.PTTL k]) (.DUMP k)).Err = none ∧
      (w.respond (cli.sent ++ [.PTTL k]) (.DUMP k)).Bytes.2 = none := by
  unfold dumpKey at h
  rcases hc : r.Client w with ⟨res, r1⟩
  rw [hc] at h
  cases res with
  | error e => simp at h
  | ok cli =>
    refine ⟨cli, r1, rfl, ?_⟩
    simp only [Conn.Cmd] at h
    cases hp : (w.respond cli.sent (.PTTL k)).Err with
    | some e => simp [hp, checkErr] at h
    | none =>
      simp only [hp, checkErr] at h
      cases hpi : (w.respond cli.sent (.PTTL k)).Int64.2 with
      | some e => simp [hpi] at h
      | none =>
        simp only [hpi] at h
        cases hd : (w.respond (cli.sent ++ [.PTTL k]) (.DUMP k)).Err with
        | some e => simp [hd] at h
        | none =>
          simp only [hd] at h
          cases hdb : (w.respond (cli.sent ++ [.PTTL k]) (.DUMP k)).Bytes.2 with
          | some e => simp [hdb] at h
          | none => exact ⟨rfl, rfl, rfl, rfl⟩

theorem sampleWorld_typed : sampleWorld.Typed := by
  intro log c
  cases c with
  | RESTORE k p b =>
    by_cases hk : k = keyA2
    · simp [sampleWorld, hk, failureResp]
    · simp [sampleWorld, hk, statusResp]
  | _ => simp [sampleWorld, statusResp, intResp, bulkResp, listResp]

theorem sampleRutil_connects :
    sampleRutil.Client sampleWorld =
      (.ok { sent := [] }, { sampleRutil with cli := some { sent := [] } }) := rfl

/-- C6: when `PTTL` and `DUMP` both succeed and the store reports the TTL
`t`, `dumpKey` returns a record whose `Pttl` is 0 for `t < 0` and `t` for
`t ≥ 0`; so the `Pttl` of a dumped record is never negative. -/
theorem dumpKey_clamps_negative_ttl (w : World) (r r1 : rutil) (cli : Conn) (k : GoString)
    (t : Int) (v : List Byte) (hc : r.Client w = (.ok cli, r1))
    (hp : (w.respond cli.sent (.PTTL k)).Err = none)
    (hpi : (w.respond cli.sent (.PTTL k)).Int64 = (t, none))
    (hd : (w.respond (cli.sent ++ [.PTTL k]) (.DUMP k)).Err = none)
    (hdb : (w.respond (cli.sent ++ [.PTTL k]) (.DUMP k)).Bytes = (v, none)) :
    ∃ (d : KeyDump) (r2 : rutil), dumpKey w r k = (.ok d, r2) ∧
      (t < 0 → d.Pttl = 0) ∧ (0 ≤ t → d.Pttl = t) ∧ 0 ≤ d.Pttl := by
  refine ⟨_, _, dumpKey_of_replies w r r1 cli k t v hc hp hpi hd hdb, ?_, ?_, ?_⟩
  · intro ht
    simp [ht]
  · intro ht
    simp [not_lt.mpr ht]
  · show 0 ≤ (if t < 0 then 0 else t)
    split <;> omega

/-- Witness for C6: the store reports the TTL -1 for the key `a1`. -/
theorem dumpKey_clamps_negative_ttl_witness :
    sampleRutil.Client sampleWorld =
      (.ok { sent := [] }, { sampleRutil with cli := some { sent := [] } }) ∧
    (sampleWorld.respond [] (.PTTL keyA1)).Err = none ∧
    (sampleWorld.respond [] (.PTTL keyA1)).Int64 = (-1, none) ∧
    (sampleWorld.respond ([] ++ [.PTTL keyA1]) (.DUMP keyA1)).Err = none ∧
    (sampleWorld.respond ([] ++ [.PTTL keyA1]) (.DUMP keyA1)).Bytes = ([0x07, 0x09], none) ∧
    ∃ (d : KeyDump) (r2 : rutil), dumpKey sampleWorld sampleRutil keyA1 = (.ok d, r2) ∧
      ((-1 : Int) < 0 → d.Pttl = 0) ∧ ((0 : Int) ≤ -1 → d.Pttl = -1) ∧ 0 ≤ d.Pttl :=
  ⟨rfl, rfl, rfl, rfl, rfl,
    dumpKey_clamps_negative_ttl sampleWorld sampleRutil
      { sampleRutil with cli := some { sent := [] } } { sent := [] } keyA1 (-1) [0x07, 0x09]
      rfl rfl rfl rfl rfl⟩

/-- C10: a record that `dumpKey` returns for the key `k` has `Key` the bytes
of `k`, `KeyL` their number, `Dump` the value the store returned for `DUMP`
and `DumpL` its number of bytes; so its length fields are the lengths of its
buffers, and `readDump` recovers it from the bytes `writeDump` writes for it. -/
theorem dumpKey_well_formed (w : World) (hw : w.Typed) (r r2 : rutil) (k : GoString)
    (d : KeyDump) (hk : k.length < 2 ^ 63) (h : dumpKey w r k = (.ok d, r2)) :
    ∃ (cli : Conn) (r1 : rutil), r.Client w = (.ok cli, r1) ∧
      d.Key = k ∧ d.KeyL = k.length ∧
      d.Dump = (w.respond (cli.sent ++ [.PTTL k]) (.DUMP k)).Bytes.1 ∧
      d.DumpL = (w.respond (cli.sent ++ [.PTTL k]) (.DUMP k)).Bytes.1.length ∧
      d.KeyL = d.Key.length ∧ d.DumpL = d.Dump.length ∧ d.Typed ∧
      ∀ (maxAlloc : Nat) (rest : List Byte),
        d.Key.length ≤ maxAlloc → d.Dump.length ≤ maxAlloc →
        readDump maxAlloc (recordBytes d ++ rest) = (.ok d, rest) := by
  obtain ⟨cli, r1, hc, hp, hpi, hd, hdb⟩ := dumpKey_returns w r r2 k d h
  have hpi2 : (w.respond cli.sent (.PTTL k)).Int64 =
      ((w.respond cli.sent (.PTTL k)).Int64.1, none) := by rw [← hpi]
  have hdb2 : (w.respond (cli.sent ++ [.PTTL k]) (.DUMP k)).Bytes =
      ((w.respond (cli.sent ++ [.PTTL k]) (.DUMP k)).Bytes.1, none) := by rw [← hdb]
  have heq := dumpKey_of_replies w r r1 cli k _ _ hc hp hpi2 hd hdb2
  rw [h] at heq
  have hdeq := (Except.ok.inj (Prod.mk.inj heq).1)
  obtain ⟨ht1, ht2, _⟩ := hw cli.sent (.PTTL k)
  obtain ⟨_, _, hv⟩ := hw (cli.sent ++ [.PTTL k]) (.DUMP k)
  have hkl : uint64 (len k) = k.length := by
    have := uint64_of_nonneg (len k) (by simp [len]) (by simp only [len]; omega)
    simpa [len] using this
  have hvl : uint64 (len (w.respond (cli.sent ++ [.PTTL k]) (.DUMP k)).Bytes.1) =
      (w.respond (cli.sent ++ [.PTTL k]) (.DUMP k)).Bytes.1.length := by
    have := uint64_of_nonneg (len (w.respond (cli.sent ++ [.PTTL k]) (.DUMP k)).Bytes.1)
      (by simp [len]) (by simp only [len]; omega)
    simpa [len] using this
  rw [hkl, hvl] at hdeq
  have hKey : d.Key = k := by rw [hdeq]
  have hKeyL : d.KeyL = k.length := by rw [hdeq]
  have hDump : d.Dump = (w.respond (cli.sent ++ [.PTTL k]) (.DUMP k)).Bytes.1 := by rw [hdeq]
  have hDumpL : d.DumpL = (w.respond (cli.sent ++ [.PTTL k]) (.DUMP k)).Bytes.1.length := by
    rw [hdeq]
  have hPttl : d.Pttl = if (w.respond cli.sent (.PTTL k)).Int64.1 < 0 then 0
      else (w.respond cli.sent (.PTTL k)).Int64.1 := by rw [hdeq]
  have hTyped : d.Typed := by
    refine ⟨?_, ?_, ?_, ?_⟩
    · rw [hPttl]; split <;> omega
    · rw [hPttl]; split <;> omega
    · rw [hKeyL]; omega
    · rw [hDumpL]; omega
  have hk1 : d.KeyL = d.Key.length := by rw [hKeyL, hKey]
  have hd1 : d.DumpL = d.Dump.length := by rw [hDumpL, hDump]
  exact ⟨cli, r1, hc, hKey, hKeyL, hDump, hDumpL, hk1, hd1, hTyped,
    fun maxAlloc rest hka hda => readDump_recordBytes maxAlloc d hTyped hk1 hd1 hka hda rest⟩

/-- Witness for C10: the record dumped for the key `a1`. -/
theorem dumpKey_well_formed_witness :
    sampleWorld.Typed ∧ keyA1.length < 2 ^ 63 ∧
    dumpKey sampleWorld sampleRutil keyA1 =
      (.ok (recordOf keyA1),
        { sampleRutil with cli := some { sent := [.PTTL keyA1, .DUMP keyA1] } }) ∧
    ∃ (cli : Conn) (r1 : rutil), sampleRutil.Client sampleWorld = (.ok cli, r1) ∧
      (recordOf keyA1).Key = keyA1 ∧ (recordOf keyA1).KeyL = keyA1.length ∧
      (recordOf keyA1).Dump =
        (sampleWorld.respond (cli.sent ++ [.PTTL keyA1]) (.DUMP keyA1)).Bytes.1 ∧
      (recordOf keyA1).DumpL =
        (sampleWorld.respond (cli.sent ++ [.PTTL keyA1]) (.DUMP keyA1)).Bytes.1.length ∧
      (recordOf keyA1).KeyL = (recordOf keyA1).Key.length ∧
      (recordOf keyA1).DumpL = (recordOf keyA1).Dump.length ∧ (recordOf keyA1).Typed ∧
      ∀ (maxAlloc : Nat) (rest : List Byte),
        (recordOf keyA1).Key.length ≤ maxAlloc → (recordOf keyA1).Dump.length ≤ maxAlloc →
        readDump maxAlloc (recordBytes (recordOf keyA1) ++ rest) = (.ok (recordOf keyA1), rest) :=
  ⟨sampleWorld_typed, by decide, rfl,
    dumpKey_well_formed sampleWorld sampleWorld_typed sampleRutil
      { sampleRutil with cli := some { sent := [.PTTL keyA1, .DUMP keyA1] } } keyA1
      (recordOf keyA1) (by decide) rfl⟩

/-! ## The key selector -/

theorem foldl_append_filter {α : Type} (p : α → Bool) (l acc : List α) :
    l.foldl (fun vsf v => if p v then vsf ++ [v] else vsf) acc = acc ++ l.filter p := by
  induction l generalizing acc with
  | nil => simp
  | cons x xs ih =>
    simp only [List.foldl_cons, ih, List.filter_cons]
    by_cases hx : p x = true <;> simp [hx]

theorem getKeys_of_replies (w : World) (re : Regexp) (r r1 : rutil) (cli : Conn)
    (wcard regex : GoString) (invert : Bool) (l : List GoString)
    (hc : r.Client w = (.ok cli, r1))
    (he : (w.respond cli.sent (.KEYS wcard)).Err = none)
    (hl : (w.respond cli.sent (.KEYS wcard)).List = (l, none)) :
    getKeys w re r wcard regex invert =
      (.ok (l.filter (fun s => invertibleMatch re s regex invert),
            len (l.filter (fun s => invertibleMatch re s regex invert))),
        { r1 with cli := some { sent := cli.sent ++ [.KEYS wcard] } }) := by
  simp only [getKeys, hc, Conn.Cmd, he, hl, checkErr, foldl_append_filter, List.nil_append]

theorem invertibleMatch_empty (re : Regexp) (s : GoString) (v : Bool) :
    invertibleMatch re s [] v = true := by
  simp [invertibleMatch]

theorem invertibleMatch_compiled (re : Regexp) (s r : GoString) (v : Bool)
    (m : GoString → Bool) (hr : r ≠ []) (hm : re.compile r = some m) :
    invertibleMatch re s r v = (m s != v) := by
  simp only [invertibleMatch, hr, ↓reduceIte, Regexp.MatchString, hm]
  cases v <;> cases m s <;> rfl

theorem invertibleMatch_not_compiled (re : Regexp) (s r : GoString) (v : Bool)
    (hr : r ≠ []) (hm : re.compile r = none) :
    invertibleMatch re s r v = v := by
  simp only [invertibleMatch, hr, ↓reduceIte, Regexp.MatchString, hm]
  cases v <;> rfl

/-- C7: when `KEYS` succeeds with the list `l`, `getKeys` returns the keys of
`l` that pass `invertibleMatch`, in the order of `l`, and their number.  The
filter passes every key for an empty regex; for a non-empty regex that
compiles to the matcher `m` it passes `s` exactly when `m s` differs from
`invert`, so it keeps the matches for `invert = false` and the other keys for
`invert = true`. -/
theorem getKeys_filters (w : World) (re : Regexp) (r r1 : rutil) (cli : Conn)
    (wcard regex : GoString) (invert : Bool) (l : List GoString)
    (hc : r.Client w = (.ok cli, r1))
    (he : (w.respond cli.sent (.KEYS wcard)).Err = none)
    (hl : (w.respond cli.sent (.KEYS wcard)).List = (l, none)) :
    ∃ (vsf : List GoString) (r2 : rutil),
      getKeys w re r wcard regex invert = (.ok (vsf, (vsf.length : Int)), r2) ∧
      vsf = l.filter (fun s => invertibleMatch re s regex invert) ∧
      vsf.Sublist l ∧
      (regex = [] → vsf = l) ∧
      (∀ m, regex ≠ [] → re.compile regex = some m →
        (∀ s, invertibleMatch re s regex invert = true ↔ m s ≠ invert) ∧
        (invert = false → vsf = l.filter m) ∧
        (invert = true → vsf = l.filter (fun s => !m s))) := by
  refine ⟨_, _, getKeys_of_replies w re r r1 cli wcard regex invert l hc he hl, rfl,
    List.filter_sublist l, ?_, ?_⟩
  · intro hr
    subst hr
    simp [invertibleMatch_empty]
  · intro m hr hm
    refine ⟨?_, ?_, ?_⟩
    · intro s
      rw [invertibleMatch_compiled re s regex invert m hr hm]
      cases invert <;> cases m s <;> simp
    · intro hi
      subst hi
      congr 1
      funext s
      rw [invertibleMatch_compiled re s regex false m hr hm]
      cases m s <;> rfl
    · intro hi
      subst hi
      congr 1
      funext s
      rw [invertibleMatch_compiled re s regex true m hr hm]
      cases m s <;> rfl

/-- Witness for C7: the keys `a1`, `a2`, `b1` with the regex `^a` give `a1`,
`a2` for `invert = false` and `b1` for `invert = true`. -/
theorem getKeys_filters_witness :
    sampleRutil.Client sampleWorld =
      (.ok { sent := [] }, { sampleRutil with cli := some { sent := [] } }) ∧
    (sampleWorld.respond [] (.KEYS patStar)).Err = none ∧
    (sampleWorld.respond [] (.KEYS patStar)).List = ([keyA1, keyA2, keyB1], none) ∧
    (getKeys sampleWorld sampleRegexp sampleRutil patStar patHatA false).1 =
      .ok ([keyA1, keyA2], 2) ∧
    (getKeys sampleWorld sampleRegexp sampleRutil patStar patHatA true).1 =
      .ok ([keyB1], 1) ∧
    ∃ (vsf : List GoString) (r2 : rutil),
      getKeys sampleWorld sampleRegexp sampleRutil patStar patHatA false =
        (.ok (vsf, (vsf.length : Int)), r2) ∧
      vsf = [keyA1, keyA2, keyB1].filter
        (fun s => invertibleMatch sampleRegexp s patHatA false) ∧
      vsf.Sublist [keyA1, keyA2, keyB1] ∧
      (patHatA = [] → vsf = [keyA1, keyA2, keyB1]) ∧
      (∀ m, patHatA ≠ [] → sampleRegexp.compile patHatA = some m →
        (∀ s, invertibleMatch sampleRegexp s patHatA false = true ↔ m s ≠ false) ∧
        (false = false → vsf = [keyA1, keyA2, keyB1].filter m) ∧
        (false = true → vsf = [keyA1, keyA2, keyB1].filter (fun s => !m s))) :=
  ⟨rfl, rfl, rfl, rfl, rfl,
    getKeys_filters sampleWorld sampleRegexp sampleRutil
      { sampleRutil with cli := some { sent := [] } } { sent := [] } patStar patHatA false
      [keyA1, keyA2, keyB1] rfl rfl rfl⟩

/-- C8 as stated fails: the pattern `(` does not compile, and with
`invert = true` the filter passes the key `a1`, and `getKeys` returns all
three keys of the store. -/
theorem malformed_regex_counterexample :
    patOpenParen ≠ [] ∧
    (sampleRegexp.MatchString patOpenParen keyA1).2 ≠ none ∧
    invertibleMatch sampleRegexp keyA1 patOpenParen true = true ∧
    (getKeys sampleWorld sampleRegexp sampleRutil patStar patOpenParen true).1 =
      .ok ([keyA1, keyA2, keyB1], 3) ∧
    (getKeys sampleWorld sampleRegexp sampleRutil patStar patOpenParen true).1 ≠
      .ok ([], 0) := by
  refine ⟨by decide, by decide, rfl, rfl, ?_⟩
  intro h
  have h2 : (Except.ok ([keyA1, keyA2, keyB1], 3) : Except Fault (List GoString × Int)) =
      .ok ([], 0) := h
  injection h2 with h3
  exact absurd (congrArg (fun x => x.1.length) h3) (by decide)

/-- C8, as the code has it: for a non-empty regex that does not compile,
`invertibleMatch` returns `invert` for every key.  When `KEYS` succeeds with
the list `l`, `getKeys` returns the empty list and the count 0 for
`invert = false`, and the whole of `l` with its length for `invert = true`;
in both cases it returns. -/
theorem malformed_regex_selects_by_invert (w : World) (re : Regexp) (r r1 : rutil) (cli : Conn)
    (wcard regex : GoString) (invert : Bool) (l : List GoString)
    (hr : regex ≠ []) (hbad : re.compile regex = none)
    (hc : r.Client w = (.ok cli, r1))
    (he : (w.respond cli.sent (.KEYS wcard)).Err = none)
    (hl : (w.respond cli.sent (.KEYS wcard)).List = (l, none)) :
    (∀ s, invertibleMatch re s regex invert = invert) ∧
    ∃ r2 : rutil,
      (invert = false → getKeys w re r wcard regex invert = (.ok ([], 0), r2)) ∧
      (invert = true → getKeys w re r wcard regex invert = (.ok (l, len l), r2)) := by
  refine ⟨fun s => invertibleMatch_not_compiled re s regex invert hr hbad,
    { r1 with cli := some { sent := cli.sent ++ [.KEYS wcard] } }, ?_, ?_⟩
  · intro hi
    subst hi
    rw [getKeys_of_replies w re r r1 cli wcard regex false l hc he hl]
    have hf : l.filter (fun s => invertibleMatch re s regex false) = [] := by
      simp [invertibleMatch_not_compiled re _ regex false hr hbad]
    rw [hf]
    rfl
  · intro hi
    subst hi
    rw [getKeys_of_replies w re r r1 cli wcard regex true l hc he hl]
    have hf : l.filter (fun s => invertibleMatch re s regex true) = l := by
      simp [invertibleMatch_not_compiled re _ regex true hr hbad]
    rw [hf]

/-- Witness for the amended C8: the pattern `(` with `invert = false`. -/
theorem malformed_regex_selects_by_invert_witness :
    patOpenParen ≠ [] ∧ (sampleRegexp.MatchString patOpenParen keyA1).2 ≠ none ∧
    (getKeys sampleWorld sampleRegexp sampleRutil patStar patOpenParen false).1 = .ok ([], 0) ∧
    ((∀ s, invertibleMatch sampleRegexp s patOpenParen false = false) ∧
    ∃ r2 : rutil,
      (false = false →
        getKeys sampleWorld sampleRegexp sampleRutil patStar patOpenParen false =
          (.ok ([], 0), r2)) ∧
      (false = true →
        getKeys sampleWorld sampleRegexp sampleRutil patStar patOpenParen false =
          (.ok ([keyA1, keyA2, keyB1], len [keyA1, keyA2, keyB1]), r2))) :=
  ⟨by decide, by decide, rfl,
    malformed_regex_selects_by_invert sampleWorld sampleRegexp sampleRutil
      { sampleRutil with cli := some { sent := [] } } { sent := [] } patStar patOpenParen false
      [keyA1, keyA2, keyB1] (by decide) rfl rfl rfl rfl⟩

/-! ## The restore step -/

theorem restoreKey_del_fails (w : World) (r r1 : rutil) (cli : Conn) (d : KeyDump)
    (ignor : Bool) (hc : r.Client w = (.ok cli, r1))
    (hdel : (w.respond cli.sent (.DEL d.Key)).Err ≠ none) :
    restoreKey w r d true ignor =
      (.error (.exit 1), { r1 with cli := some { sent := cli.sent ++ [.DEL d.Key] } }) := by
  simp only [restoreKey, hc, Conn.Cmd, ↓reduceIte, checkErr_ne_none _ hdel]

theorem restoreKey_reaches_restore (w : World) (r r1 : rutil) (cli : Conn) (d : KeyDump)
    (del ignor : Bool) (hc : r.Client w = (.ok cli, r1))
    (hdel : del = true → (w.respond cli.sent (.DEL d.Key)).Err = none) :
    restoreKey w r d del ignor =
      (if ignor = true then
        (if (w.respond (cli.sent ++ delCmds del d) (.RESTORE d.Key d.Pttl d.Dump)).Err ≠ none
          then .ok 0 else .ok 1)
       else
        (match checkErr
            (w.respond (cli.sent ++ delCmds del d) (.RESTORE d.Key d.Pttl d.Dump)).Err with
          | .error e => .error e
          | .ok _ => .ok 1),
        { r1 with cli := some { sent := cli.sent ++ restoreCmds del d } }) := by
  cases del with
  | false =>
    simp only [restoreKey, hc, Conn.Cmd, delCmds, restoreCmds, Bool.false_eq_true, ↓reduceIte,
      List.append_nil, List.nil_append]
    split
    · split <;> rfl
    · split <;> simp_all
  | true =>
    simp only [restoreKey, hc, Conn.Cmd, delCmds, restoreCmds, ↓reduceIte, hdel rfl,
      checkErr_none, List.append_assoc]
    split
    · split <;> rfl
    · split <;> simp_all

theorem restoreKey_restored (w : World) (r r1 : rutil) (cli : Conn) (d : KeyDump)
    (del ignor : Bool) (hc : r.Client w = (.ok cli, r1))
    (hdel : del = true → (w.respond cli.sent (.DEL d.Key)).Err = none)
    (hres : (w.respond (cli.sent ++ delCmds del d) (.RESTORE d.Key d.Pttl d.Dump)).Err = none) :
    restoreKey w r d del ignor =
      (.ok 1, { r1 with cli := some { sent := cli.sent ++ restoreCmds del d } }) := by
  rw [restoreKey_reaches_restore w r r1 cli d del ignor hc hdel, hres]
  cases ignor <;> simp [checkErr]

theorem restoreKey_skipped (w : World) (r r1 : rutil) (cli : Conn) (d : KeyDump)
    (del : Bool) (hc : r.Client w = (.ok cli, r1))
    (hdel : del = true → (w.respond cli.sent (.DEL d.Key)).Err = none)
    (hres : (w.respond (cli.sent ++ delCmds del d) (.RESTORE d.Key d.Pttl d.Dump)).Err ≠ none) :
    restoreKey w r d del true =
      (.ok 0, { r1 with cli := some { sent := cli.sent ++ restoreCmds del d } }) := by
  rw [restoreKey_reaches_restore w r r1 cli d del true hc hdel]
  simp [hres]

theorem restoreKey_aborts (w : World) (r r1 : rutil) (cli : Conn) (d : KeyDump)
    (del : Bool) (hc : r.Client w = (.ok cli, r1))
    (hdel : del = true → (w.respond cli.sent (.DEL d.Key)).Err = none)
    (hres : (w.respond (cli.sent ++ delCmds del d) (.RESTORE d.Key d.Pttl d.Dump)).Err ≠ none) :
    restoreKey w r d del false =
      (.error (.exit 1), { r1 with cli := some { sent := cli.sent ++ restoreCmds del d } }) := by
  rw [restoreKey_reaches_restore w r r1 cli d del false hc hdel]
  simp [checkErr_ne_none _ hres]

theorem restoreAll_three (w : World) (r r1 : rutil) (cli : Conn) (d1 d2 d3 : KeyDump)
    (del : Bool) (hc : r.Client w = (.ok cli, r1))
    (hdel1 : del = true → (w.respond cli.sent (.DEL d1.Key)).Err = none)
    (hres1 : (w.respond (cli.sent ++ delCmds del d1)
      (.RESTORE d1.Key d1.Pttl d1.Dump)).Err = none)
    (hdel2 : del = true →
      (w.respond (cli.sent ++ restoreCmds del d1) (.DEL d2.Key)).Err = none)
    (hres2 : (w.respond (cli.sent ++ restoreCmds del d1 ++ delCmds del d2)
      (.RESTORE d2.Key d2.Pttl d2.Dump)).Err ≠ none)
    (hdel3 : del = true →
      (w.respond (cli.sent ++ restoreCmds del d1 ++ restoreCmds del d2) (.DEL d3.Key)).Err = none)
    (hres3 : (w.respond (cli.sent ++ restoreCmds del d1 ++ restoreCmds del d2 ++ delCmds del d3)
      (.RESTORE d3.Key d3.Pttl d3.Dump)).Err = none) :
    restoreAll w r del true [d1, d2, d3] 0 =
      ((.ok (), 2), { r1 with cli := some (Conn.mk
        (cli.sent ++ restoreCmds del d1 ++ restoreCmds del d2 ++ restoreCmds del d3)) }) ∧
    restoreAll w r del false [d1, d2, d3] 0 =
      ((.error (.exit 1), 1), { r1 with cli := some (Conn.mk
        (cli.sent ++ restoreCmds del d1 ++ restoreCmds del d2)) }) := by
  have c1 : rutil.Client w { r1 with cli := some { sent := cli.sent ++ restoreCmds del d1 } } =
      (.ok { sent := cli.sent ++ restoreCmds del d1 },
        { r1 with cli := some { sent := cli.sent ++ restoreCmds del d1 } }) :=
    Client_cached w _ _ rfl
  have c2 : rutil.Client w
      { r1 with cli := some { sent := cli.sent ++ restoreCmds del d1 ++ restoreCmds del d2 } } =
      (.ok { sent := cli.sent ++ restoreCmds del d1 ++ restoreCmds del d2 },
        { r1 with cli := some { sent := cli.sent ++ restoreCmds del d1 ++ restoreCmds del d2 } }) :=
    Client_cached w _ _ rfl
  constructor
  · have s1 := restoreKey_restored w r r1 cli d1 del true hc hdel1 hres1
    have s2 := restoreKey_skipped w _ _ _ d2 del c1 hdel2 hres2
    have s3 := restoreKey_restored w _ _ _ d3 del true c2 hdel3 hres3
    simp only [restoreAll, s1, s2, s3]
    rfl
  · have s1 := restoreKey_restored w r r1 cli d1 del false hc hdel1 hres1
    have s2 := restoreKey_aborts w _ _ _ d2 del c1 hdel2 hres2
    simp only [restoreAll, s1, s2]
    rfl

/-- C9: `restoreKey` sends `DEL` for the key before `RESTORE` exactly when
`del` is set.  If `del` is set and `DEL` fails, the run ends there for either
value of `ignor`, and `RESTORE` is not sent.  Otherwise the result is 1 when
`RESTORE` of the key, its `Pttl` and its `Dump` succeeds; when it fails, the
result is 0 for `ignor = true` and the run ends for `ignor = false`.  Summed
over three records of which the second fails at the store, the count is 2
under `ignor = true`; under `ignor = false` the run ends with 1 key restored
and the third record is never sent. -/
theorem restoreKey_policy (w : World) (r r1 : rutil) (cli : Conn) (d : KeyDump)
    (del ignor : Bool) (hc : r.Client w = (.ok cli, r1)) :
    (Command.DEL d.Key ∈ restoreCmds del d ↔ del = true) ∧
    restoreCmds del d = delCmds del d ++ [Command.RESTORE d.Key d.Pttl d.Dump] ∧
    (del = true → (w.respond cli.sent (.DEL d.Key)).Err ≠ none →
      restoreKey w r d del ignor =
        (.error (.exit 1), { r1 with cli := some { sent := cli.sent ++ [.DEL d.Key] } })) ∧
    ((del = true → (w.respond cli.sent (.DEL d.Key)).Err = none) →
      ((w.respond (cli.sent ++ delCmds del d) (.RESTORE d.Key d.Pttl d.Dump)).Err = none →
        restoreKey w r d del ignor =
          (.ok 1, { r1 with cli := some { sent := cli.sent ++ restoreCmds del d } })) ∧
      ((w.respond (cli.sent ++ delCmds del d) (.RESTORE d.Key d.Pttl d.Dump)).Err ≠ none →
        restoreKey w r d del true =
          (.ok 0, { r1 with cli := some { sent := cli.sent ++ restoreCmds del d } }) ∧
        restoreKey w r d del false =
          (.error (.exit 1),
            { r1 with cli := some { sent := cli.sent ++ restoreCmds del d } }))) ∧
    (∀ d2 d3 : KeyDump,
      (del = true → (w.respond cli.sent (.DEL d.Key)).Err = none) →
      (w.respond (cli.sent ++ delCmds del d) (.RESTORE d.Key d.Pttl d.Dump)).Err = none →
      (del = true → (w.respond (cli.sent ++ restoreCmds del d) (.DEL d2.Key)).Err = none) →
      (w.respond (cli.sent ++ restoreCmds del d ++ delCmds del d2)
        (.RESTORE d2.Key d2.Pttl d2.Dump)).Err ≠ none →
      (del = true →
        (w.respond (cli.sent ++ restoreCmds del d ++ restoreCmds del d2)
          (.DEL d3.Key)).Err = none) →
      (w.respond (cli.sent ++ restoreCmds del d ++ restoreCmds del d2 ++ delCmds del d3)
        (.RESTORE d3.Key d3.Pttl d3.Dump)).Err = none →
      restoreAll w r del true [d, d2, d3] 0 =
        ((.ok (), 2), { r1 with cli := some (Conn.mk
          (cli.sent ++ restoreCmds del d ++ restoreCmds del d2 ++ restoreCmds del d3)) }) ∧
      restoreAll w r del false [d, d2, d3] 0 =
        ((.error (.exit 1), 1), { r1 with cli := some (Conn.mk
          (cli.sent ++ restoreCmds del d ++ restoreCmds del d2)) })) := by
  refine ⟨?_, rfl, ?_, ?_, ?_⟩
  · cases del <;> simp [restoreCmds, delCmds]
  · intro hd hdel
    subst hd
    exact restoreKey_del_fails w r r1 cli d ignor hc hdel
  · intro hdel
    exact ⟨fun hres => restoreKey_restored w r r1 cli d del ignor hc hdel hres,
      fun hres => ⟨restoreKey_skipped w r r1 cli d del hc hdel hres,
        restoreKey_aborts w r r1 cli d del hc hdel hres⟩⟩
  · intro d2 d3 hdel1 hres1 hdel2 hres2 hdel3 hres3
    exact restoreAll_three w r r1 cli d d2 d3 del hc hdel1 hres1 hdel2 hres2 hdel3 hres3

/-- Witness for C9: the records of `a1`, `a2`, `b1` restored with `del` set
into the store that refuses `a2`. -/
theorem restoreKey_policy_witness :
    sampleRutil.Client sampleWorld =
      (.ok { sent := [] }, { sampleRutil with cli := some { sent := [] } }) ∧
    restoreAll sampleWorld sampleRutil true true
        [recordOf keyA1, recordOf keyA2, recordOf keyB1] 0 =
      ((.ok (), 2), { sampleRutil with cli := some { sent :=
        [.DEL keyA1, .RESTORE keyA1 0 [0x07, 0x09], .DEL keyA2, .RESTORE keyA2 0 [0x07, 0x09],
         .DEL keyB1, .RESTORE keyB1 0 [0x07, 0x09]] } }) ∧
    restoreAll sampleWorld sampleRutil true false
        [recordOf keyA1, recordOf keyA2, recordOf keyB1] 0 =
      ((.error (.exit 1), 1), { sampleRutil with cli := some { sent :=
        [.DEL keyA1, .RESTORE keyA1 0 [0x07, 0x09], .DEL keyA2,
         .RESTORE keyA2 0 [0x07, 0x09]] } }) :=
  ⟨rfl,
    (restoreKey_policy sampleWorld sampleRutil { sampleRutil with cli := some { sent := [] } }
      { sent := [] } (recordOf keyA1) true true rfl).2.2.2.2 (recordOf keyA2) (recordOf keyB1)
      (fun _ => rfl) rfl (fun _ => rfl) (by decide) (fun _ => rfl) rfl⟩

end Rutil
